import Mathlib

/-!
Shallow embedding of the Battleships repository (src/battleship/ship.py,
src/battleship/board.py, src/battleship/player.py) and verification of the
specification claims about it.

Coordinates are pairs of integers (Python ints are unbounded).  Python sets
are modelled as `Finset`, Python lists as `List`.  Methods that can raise
exceptions return `Except String`; functions whose Python counterpart can
crash (e.g. `random.choice` on an empty sequence, `list.remove` on an absent
element) or loop are modelled with an explicit oracle of random draws and
return `Option`.
-/

set_option maxHeartbeats 1000000
set_option maxRecDepth 8000

namespace Battleship

abbrev Coord := Int × Int

/-- `1 <= x <= 10 and 1 <= y <= 10`: the coordinate lies on the 10x10 grid
(`Board.SIZE_X = Board.SIZE_Y = 10`). -/
def onGrid (c : Coord) : Prop :=
  1 ≤ c.1 ∧ c.1 ≤ 10 ∧ 1 ≤ c.2 ∧ c.2 ≤ 10

instance (c : Coord) : Decidable (onGrid c) := by
  unfold onGrid; infer_instance

/-! ## Ship (src/battleship/ship.py) -/

/-- The fields of a `Ship` object after `__init__` has normalised the two
corners with `min`/`max`.  `set_coordinates_damages` is the mutable set of
damaged cells. -/
structure Ship where
  x_start : Int
  y_start : Int
  x_end : Int
  y_end : Int
  set_coordinates_damages : Finset Coord
deriving DecidableEq

namespace Ship

/-- `Ship.is_vertical`. -/
def is_vertical (s : Ship) : Bool := s.x_start == s.x_end

/-- `Ship.is_horizontal`. -/
def is_horizontal (s : Ship) : Bool := s.y_start == s.y_end

/-- `Ship.length`. -/
def length (s : Ship) : Int :=
  if s.is_vertical then s.y_end - s.y_start + 1 else s.x_end - s.x_start + 1

/-- `Ship.get_all_coordinates`: the cells covered by the ship, built by
iterating `range(self.length())` along the ship's axis. -/
def get_all_coordinates (s : Ship) : Finset Coord :=
  if s.is_vertical then
    (Finset.range s.length.toNat).image (fun i : Nat => (s.x_start, s.y_start + (i : Int)))
  else
    (Finset.range s.length.toNat).image (fun j : Nat => (s.x_start + (j : Int), s.y_start))

/-- `Ship.is_on_coordinate`. -/
def is_on_coordinate (s : Ship) (coord_x coord_y : Int) : Bool :=
  decide ((coord_x, coord_y) ∈ s.get_all_coordinates)

/-- `Ship.gets_damage_at`: adds the cell to `set_coordinates_damages` when the
ship occupies it, otherwise does nothing. -/
def gets_damage_at (s : Ship) (coord_damage_x coord_damage_y : Int) : Ship :=
  if s.is_on_coordinate coord_damage_x coord_damage_y then
    { s with set_coordinates_damages :=
        insert (coord_damage_x, coord_damage_y) s.set_coordinates_damages }
  else s

/-- `Ship.is_damaged_at`. -/
def is_damaged_at (s : Ship) (coord_x coord_y : Int) : Bool :=
  decide ((coord_x, coord_y) ∈ s.set_coordinates_damages)

/-- `Ship.number_damages`. -/
def number_damages (s : Ship) : Nat :=
  s.set_coordinates_damages.card

/-- `Ship.has_sunk`: `number_damages() == length()`. -/
def has_sunk (s : Ship) : Bool :=
  (s.number_damages : Int) == s.length

/-- `Ship.is_near_coordinate`: membership in the bounding box expanded by one
cell in every direction. -/
def is_near_coordinate (s : Ship) (coord_x coord_y : Int) : Bool :=
  decide (s.x_start - 1 ≤ coord_x ∧ coord_x ≤ s.x_end + 1 ∧
          s.y_start - 1 ≤ coord_y ∧ coord_y ≤ s.y_end + 1)

/-- `Ship.is_near_ship`: some cell of `other_ship` is near `self`. -/
def is_near_ship (s other_ship : Ship) : Bool :=
  decide (∃ c ∈ other_ship.get_all_coordinates, s.is_near_coordinate c.1 c.2 = true)

/-- Well-formedness of a reachable `Ship` object: the corners are normalised,
the ship is horizontal or vertical (guaranteed by `__init__`), and the damage
set is a subset of the occupied cells (guaranteed by `gets_damage_at`). -/
def WF (s : Ship) : Prop :=
  s.x_start ≤ s.x_end ∧ s.y_start ≤ s.y_end ∧
  (s.x_start = s.x_end ∨ s.y_start = s.y_end) ∧
  s.set_coordinates_damages ⊆ s.get_all_coordinates

instance : DecidablePred WF := fun s => by
  unfold WF; infer_instance

end Ship

/-- `Ship.__init__`: normalises the two corners, rejects a ship that is
neither horizontal nor vertical, and starts with an empty damage set. -/
def mkShip (coord_start coord_end : Coord) : Except String Ship :=
  let s : Ship :=
    { x_start := min coord_start.1 coord_end.1
      x_end := max coord_start.1 coord_end.1
      y_start := min coord_start.2 coord_end.2
      y_end := max coord_start.2 coord_end.2
      set_coordinates_damages := ∅ }
  if !s.is_horizontal && !s.is_vertical then
    Except.error "The ship needs to have either a horizontal or a vertical orientation."
  else
    Except.ok s

/-! ## Board (src/battleship/board.py) -/

/-- The fields of a `Board` object. -/
structure Board where
  list_ships : List Ship
  set_coordinates_previous_shots : Finset Coord
deriving DecidableEq

/-- `Board.DICT_NUMBER_SHIPS_PER_LENGTH`: association list `length -> count`,
in insertion order. -/
def DICT_NUMBER_SHIPS_PER_LENGTH : List (Int × Nat) :=
  [(1, 1), (2, 1), (3, 1), (4, 1), (5, 1)]

/-- `Board.lengths_of_ships_correct`: the Python code builds the dict
`{k: ship_lengths.count(k) for k in sorted(set(ship_lengths))}` and compares
it with `DICT_NUMBER_SHIPS_PER_LENGTH`.  Dict equality is unfolded here:
every required length occurs with its required count, and no length outside
the required keys occurs. -/
def lengths_of_ships_correct (ship_lengths : List Int) : Bool :=
  (DICT_NUMBER_SHIPS_PER_LENGTH.all fun kv => ship_lengths.count kv.1 == kv.2) &&
  (ship_lengths.all fun l => DICT_NUMBER_SHIPS_PER_LENGTH.any fun kv => kv.1 == l)

/-- `Board.are_some_ships_too_close_from_each_other`:
`itertools.combinations(list_ships, 2)` enumerates each unordered pair once,
in list order, and the earlier ship's `is_near_ship` is applied to the later
one. -/
def are_some_ships_too_close_from_each_other : List Ship → Bool
  | [] => false
  | s :: rest =>
      rest.any (fun t => s.is_near_ship t) || are_some_ships_too_close_from_each_other rest

/-- `Board.__init__`: stores the ships and an empty shot history, then raises
`ValueError` when the fleet composition is wrong or two ships are too close. -/
def mkBoard (list_ships : List Ship) : Except String Board :=
  if !lengths_of_ships_correct (list_ships.map Ship.length) then
    Except.error "There should be 5 ships in total"
  else if are_some_ships_too_close_from_each_other list_ships then
    Except.error "There are some ships that are too close from each other."
  else
    Except.ok { list_ships := list_ships, set_coordinates_previous_shots := ∅ }

/-- The ship-scanning loop of `Board.is_attacked_at`: the first ship occupying
the cell is damaged and the loop returns immediately; later ships are not
inspected.  Returns the `(is_ship_hit, has_ship_sunk)` pair together with the
updated ship list. -/
def attackShips : List Ship → Int → Int → (Bool × Bool) × List Ship
  | [], _, _ => ((false, false), [])
  | s :: rest, x, y =>
      if s.is_on_coordinate x y then
        let s' := s.gets_damage_at x y
        ((true, s'.has_sunk), s' :: rest)
      else
        let r := attackShips rest x y
        (r.1, s :: r.2)

/-- `Board.is_attacked_at`.  Note that the Python method never touches
`set_coordinates_previous_shots`. -/
def Board.is_attacked_at (b : Board) (coord_x coord_y : Int) : (Bool × Bool) × Board :=
  let r := attackShips b.list_ships coord_x coord_y
  (r.1, { b with list_ships := r.2 })

/-- `Board.has_no_ships_left`. -/
def Board.has_no_ships_left (b : Board) : Bool :=
  b.list_ships.all Ship.has_sunk

/-! ## Basic lemmas about `Ship` -/

namespace Ship

theorem length_pos (s : Ship) (hwf : s.WF) : 1 ≤ s.length := by
  obtain ⟨hx, hy, -, -⟩ := hwf
  rw [length]
  split <;> omega

/-- For a well-formed (straight, normalised) ship the occupied cells are
exactly the cells of its bounding box. -/
theorem mem_get_all_coordinates (s : Ship) (hwf : s.WF) (a b : Int) :
    (a, b) ∈ s.get_all_coordinates ↔
      s.x_start ≤ a ∧ a ≤ s.x_end ∧ s.y_start ≤ b ∧ b ≤ s.y_end := by
  obtain ⟨hx, hy, hor, -⟩ := hwf
  rw [get_all_coordinates]
  by_cases hv : s.x_start = s.x_end
  · rw [if_pos (by simp [is_vertical, hv]), length, if_pos (by simp [is_vertical, hv])]
    simp only [Finset.mem_image, Finset.mem_range, Prod.mk.injEq]
    constructor
    · rintro ⟨i, hi, rfl, rfl⟩
      omega
    · rintro ⟨h1, h2, h3, h4⟩
      exact ⟨(b - s.y_start).toNat, by omega, by omega, by omega⟩
  · have hh : s.y_start = s.y_end := hor.resolve_left hv
    rw [if_neg (by simp [is_vertical, hv]), length, if_neg (by simp [is_vertical, hv])]
    simp only [Finset.mem_image, Finset.mem_range, Prod.mk.injEq]
    constructor
    · rintro ⟨j, hj, rfl, rfl⟩
      omega
    · rintro ⟨h1, h2, h3, h4⟩
      exact ⟨(a - s.x_start).toNat, by omega, by omega, by omega⟩

theorem card_get_all_coordinates (s : Ship) (_hwf : s.WF) :
    s.get_all_coordinates.card = s.length.toNat := by
  rw [get_all_coordinates]
  split
  · have hinj : Function.Injective (fun i : Nat => ((s.x_start, s.y_start + (i : Int)) : Coord)) := by
      intro i j hij
      simp only [Prod.mk.injEq] at hij
      omega
    rw [Finset.card_image_of_injective _ hinj, Finset.card_range]
  · have hinj : Function.Injective (fun j : Nat => ((s.x_start + (j : Int), s.y_start) : Coord)) := by
      intro i j hij
      simp only [Prod.mk.injEq] at hij
      omega
    rw [Finset.card_image_of_injective _ hinj, Finset.card_range]

/-- `has_sunk` (a cardinality test in the code) holds exactly when every
occupied cell is damaged, for a well-formed ship. -/
theorem has_sunk_iff (s : Ship) (hwf : s.WF) :
    s.has_sunk = true ↔ s.get_all_coordinates ⊆ s.set_coordinates_damages := by
  have hsub := hwf.2.2.2
  have hcard := card_get_all_coordinates s hwf
  have hpos := length_pos s hwf
  rw [has_sunk, beq_iff_eq, number_damages]
  constructor
  · intro h
    have heq : s.set_coordinates_damages = s.get_all_coordinates :=
      Finset.eq_of_subset_of_card_le hsub (by omega)
    rw [heq]
  · intro h
    have heq : s.set_coordinates_damages = s.get_all_coordinates :=
      Finset.Subset.antisymm hsub h
    rw [heq, hcard]
    omega

/-- Characterisation of `is_near_ship` for well-formed ships: the two
bounding boxes are within Chebyshev distance one of each other. -/
theorem is_near_ship_iff (s t : Ship) (hs : s.WF) (ht : t.WF) :
    s.is_near_ship t = true ↔
      (t.x_start ≤ s.x_end + 1 ∧ s.x_start - 1 ≤ t.x_end ∧
       t.y_start ≤ s.y_end + 1 ∧ s.y_start - 1 ≤ t.y_end) := by
  rw [is_near_ship, decide_eq_true_eq]
  constructor
  · rintro ⟨⟨a, b⟩, hmem, hnear⟩
    rw [mem_get_all_coordinates t ht] at hmem
    rw [is_near_coordinate, decide_eq_true_eq] at hnear
    omega
  · rintro ⟨h1, h2, h3, h4⟩
    have hsx := hs.1
    have hsy := hs.2.1
    have htx := ht.1
    have hty := ht.2.1
    refine ⟨(max t.x_start (s.x_start - 1), max t.y_start (s.y_start - 1)), ?_, ?_⟩
    · rw [mem_get_all_coordinates t ht]
      omega
    · rw [is_near_coordinate, decide_eq_true_eq]
      omega

/-- `is_near_ship` is symmetric on well-formed ships (the code only tests one
direction of each pair). -/
theorem is_near_ship_symm (s t : Ship) (hs : s.WF) (ht : t.WF) :
    s.is_near_ship t = true ↔ t.is_near_ship s = true := by
  rw [is_near_ship_iff s t hs ht, is_near_ship_iff t s ht hs]
  omega

/-- An occupied cell of a well-formed ship is near that ship. -/
theorem is_near_coordinate_of_mem (s : Ship) (hwf : s.WF) (a b : Int)
    (h : (a, b) ∈ s.get_all_coordinates) : s.is_near_coordinate a b = true := by
  rw [mem_get_all_coordinates s hwf] at h
  rw [is_near_coordinate, decide_eq_true_eq]
  omega

theorem gets_damage_at_get_all_coordinates (s : Ship) (x y : Int) :
    (s.gets_damage_at x y).get_all_coordinates = s.get_all_coordinates := by
  rw [gets_damage_at]
  split <;> rfl

theorem gets_damage_at_length (s : Ship) (x y : Int) :
    (s.gets_damage_at x y).length = s.length := by
  rw [gets_damage_at]
  split <;> rfl

theorem gets_damage_at_WF (s : Ship) (hwf : s.WF) (x y : Int) :
    (s.gets_damage_at x y).WF := by
  obtain ⟨hx, hy, hor, hsub⟩ := hwf
  rw [gets_damage_at]
  split
  · next hon =>
    rw [is_on_coordinate, decide_eq_true_eq] at hon
    refine ⟨hx, hy, hor, ?_⟩
    intro c hc
    rcases Finset.mem_insert.mp hc with h | h
    · subst h
      exact hon
    · exact hsub h
  · exact ⟨hx, hy, hor, hsub⟩

end Ship

/-! ## Lemmas about the `Ship` constructor -/

theorem mkShip_ok_inv (a b : Coord) (s : Ship) (h : mkShip a b = Except.ok s) :
    s = ⟨min a.1 b.1, min a.2 b.2, max a.1 b.1, max a.2 b.2, ∅⟩ ∧
      (a.1 = b.1 ∨ a.2 = b.2) := by
  rw [mkShip] at h
  split at h
  · cases h
  · next hcond =>
    cases h
    refine ⟨rfl, ?_⟩
    simp only [Ship.is_horizontal, Ship.is_vertical, Bool.and_eq_true, Bool.not_eq_true',
      beq_eq_false_iff_ne, ne_eq, not_and, not_not] at hcond
    by_cases hx : a.1 = b.1
    · exact Or.inl hx
    · right
      by_contra hy
      exact hx (inf_eq_sup.mp (hcond (fun hmm => hy (inf_eq_sup.mp hmm))))

theorem mkShip_ok_of (a b : Coord) (h : a.1 = b.1 ∨ a.2 = b.2) :
    mkShip a b = Except.ok ⟨min a.1 b.1, min a.2 b.2, max a.1 b.1, max a.2 b.2, ∅⟩ := by
  rw [mkShip]
  rw [if_neg]
  simp only [Ship.is_horizontal, Ship.is_vertical, Bool.and_eq_true, Bool.not_eq_true',
    beq_eq_false_iff_ne, ne_eq, not_and, not_not]
  intro hy
  rcases h with h | h
  · exact inf_eq_sup.mpr h
  · exact absurd (inf_eq_sup.mpr h) hy

theorem mkShip_error_of (a b : Coord) (hx : a.1 ≠ b.1) (hy : a.2 ≠ b.2) :
    ∃ e, mkShip a b = Except.error e := by
  rw [mkShip]
  rw [if_pos]
  · exact ⟨_, rfl⟩
  · simp only [Ship.is_horizontal, Ship.is_vertical, Bool.and_eq_true, Bool.not_eq_true',
      beq_eq_false_iff_ne, ne_eq]
    constructor
    · intro hmm
      exact hy (inf_eq_sup.mp hmm)
    · intro hmm
      exact hx (inf_eq_sup.mp hmm)

theorem mkShip_ok_WF (a b : Coord) (s : Ship) (h : mkShip a b = Except.ok s) : s.WF := by
  obtain ⟨rfl, hor⟩ := mkShip_ok_inv a b s h
  refine ⟨min_le_max, min_le_max, ?_, Finset.empty_subset _⟩
  rcases hor with h | h
  · left
    simp [h]
  · right
    simp [h]

/-! ## Lemmas about `Board` construction -/

theorem lengths_of_ships_correct_eq (l : List Int) :
    lengths_of_ships_correct l = true ↔
      (l.count 1 = 1 ∧ l.count 2 = 1 ∧ l.count 3 = 1 ∧ l.count 4 = 1 ∧ l.count 5 = 1 ∧
       ∀ x ∈ l, x = 1 ∨ x = 2 ∨ x = 3 ∨ x = 4 ∨ x = 5) := by
  constructor
  · intro h
    rw [lengths_of_ships_correct, Bool.and_eq_true, List.all_eq_true, List.all_eq_true] at h
    obtain ⟨h1, h2⟩ := h
    refine ⟨?_, ?_, ?_, ?_, ?_, ?_⟩
    · simpa using h1 (1, 1) (by simp [DICT_NUMBER_SHIPS_PER_LENGTH])
    · simpa using h1 (2, 1) (by simp [DICT_NUMBER_SHIPS_PER_LENGTH])
    · simpa using h1 (3, 1) (by simp [DICT_NUMBER_SHIPS_PER_LENGTH])
    · simpa using h1 (4, 1) (by simp [DICT_NUMBER_SHIPS_PER_LENGTH])
    · simpa using h1 (5, 1) (by simp [DICT_NUMBER_SHIPS_PER_LENGTH])
    · intro x hx
      have := h2 x hx
      simp only [DICT_NUMBER_SHIPS_PER_LENGTH, List.any_cons, List.any_nil,
        Bool.or_eq_true, beq_iff_eq] at this
      tauto
  · rintro ⟨c1, c2, c3, c4, c5, hall⟩
    rw [lengths_of_ships_correct, Bool.and_eq_true, List.all_eq_true, List.all_eq_true]
    constructor
    · intro kv hkv
      simp only [DICT_NUMBER_SHIPS_PER_LENGTH, List.mem_cons, List.not_mem_nil, or_false] at hkv
      rcases hkv with rfl | rfl | rfl | rfl | rfl <;> simp [c1, c2, c3, c4, c5]
    · intro x hx
      simp only [DICT_NUMBER_SHIPS_PER_LENGTH, List.any_cons, List.any_nil,
        Bool.or_eq_true, beq_iff_eq]
      rcases hall x hx with rfl | rfl | rfl | rfl | rfl <;> tauto

theorem lengths_of_ships_correct_iff_perm (l : List Int) :
    lengths_of_ships_correct l = true ↔ l.Perm [1, 2, 3, 4, 5] := by
  rw [lengths_of_ships_correct_eq, List.perm_iff_count]
  constructor
  · rintro ⟨c1, c2, c3, c4, c5, hall⟩ a
    by_cases h1 : a = 1
    · subst h1; rw [c1]; decide
    by_cases h2 : a = 2
    · subst h2; rw [c2]; decide
    by_cases h3 : a = 3
    · subst h3; rw [c3]; decide
    by_cases h4 : a = 4
    · subst h4; rw [c4]; decide
    by_cases h5 : a = 5
    · subst h5; rw [c5]; decide
    have hnl : a ∉ l := by
      intro hmem
      rcases hall a hmem with rfl | rfl | rfl | rfl | rfl <;> simp_all
    have hnr : a ∉ ([1, 2, 3, 4, 5] : List Int) := by
      simp [h1, h2, h3, h4, h5]
    rw [List.count_eq_zero_of_not_mem hnl, List.count_eq_zero_of_not_mem hnr]
  · intro h
    refine ⟨by rw [h 1]; decide, by rw [h 2]; decide, by rw [h 3]; decide,
      by rw [h 4]; decide, by rw [h 5]; decide, ?_⟩
    intro x hx
    by_contra hcon
    push_neg at hcon
    obtain ⟨n1, n2, n3, n4, n5⟩ := hcon
    have hz : ([1, 2, 3, 4, 5] : List Int).count x = 0 :=
      List.count_eq_zero_of_not_mem (by simp [n1, n2, n3, n4, n5])
    have := h x
    rw [hz, List.count_eq_zero] at this
    exact this hx

theorem too_close_eq_false_iff (l : List Ship) :
    are_some_ships_too_close_from_each_other l = false ↔
      l.Pairwise (fun a b => ¬ a.is_near_ship b = true) := by
  induction l with
  | nil => simp [are_some_ships_too_close_from_each_other]
  | cons s rest ih =>
    rw [are_some_ships_too_close_from_each_other, Bool.or_eq_false_iff, List.pairwise_cons, ih]
    constructor
    · rintro ⟨h1, h2⟩
      refine ⟨?_, h2⟩
      intro t ht hnear
      have : rest.any (fun t => s.is_near_ship t) = true := by
        rw [List.any_eq_true]
        exact ⟨t, ht, hnear⟩
      rw [h1] at this
      cases this
    · rintro ⟨h1, h2⟩
      refine ⟨?_, h2⟩
      rw [← Bool.not_eq_true, List.any_eq_true]
      rintro ⟨t, ht, hnear⟩
      exact h1 t ht hnear

theorem is_near_ship_of_both_on (s t : Ship) (hs : s.WF) (x y : Int)
    (h1 : s.is_on_coordinate x y = true) (h2 : t.is_on_coordinate x y = true) :
    s.is_near_ship t = true := by
  rw [Ship.is_on_coordinate, decide_eq_true_eq] at h1 h2
  rw [Ship.is_near_ship, decide_eq_true_eq]
  exact ⟨(x, y), h2, Ship.is_near_coordinate_of_mem s hs x y h1⟩

/-- On a board that passed the proximity check, two distinct ships never
occupy the same cell. -/
theorem valid_unique_occupier (l : List Ship) (hwf : ∀ s ∈ l, s.WF)
    (hfar : are_some_ships_too_close_from_each_other l = false)
    (x y : Int) (i j : Nat) (hi : i < l.length) (hj : j < l.length)
    (hxi : (l.get ⟨i, hi⟩).is_on_coordinate x y = true)
    (hxj : (l.get ⟨j, hj⟩).is_on_coordinate x y = true) : i = j := by
  by_contra hne
  rw [too_close_eq_false_iff, List.pairwise_iff_get] at hfar
  rcases Nat.lt_or_ge i j with hlt | hge
  · exact hfar ⟨i, hi⟩ ⟨j, hj⟩ hlt
      (is_near_ship_of_both_on _ _ (hwf _ (l.get_mem _ _)) x y hxi hxj)
  · have hlt : j < i := Nat.lt_of_le_of_ne hge (fun h => hne h.symm)
    exact hfar ⟨j, hj⟩ ⟨i, hi⟩ hlt
      (is_near_ship_of_both_on _ _ (hwf _ (l.get_mem _ _)) x y hxj hxi)

theorem mkBoard_ok_iff (l : List Ship) (b : Board) :
    mkBoard l = Except.ok b ↔
      (lengths_of_ships_correct (l.map Ship.length) = true ∧
       are_some_ships_too_close_from_each_other l = false ∧
       b = ⟨l, ∅⟩) := by
  rw [mkBoard]
  rcases h1 : lengths_of_ships_correct (l.map Ship.length) with _ | _
  · simp [h1]
  · rcases h2 : are_some_ships_too_close_from_each_other l with _ | _
    · simp [h1, h2, eq_comm]
    · simp [h1, h2]

theorem mkBoard_error_iff (l : List Ship) :
    (∃ e, mkBoard l = Except.error e) ↔
      (lengths_of_ships_correct (l.map Ship.length) = false ∨
       are_some_ships_too_close_from_each_other l = true) := by
  rw [mkBoard]
  rcases h1 : lengths_of_ships_correct (l.map Ship.length) with _ | _
  · simp [h1]
  · rcases h2 : are_some_ships_too_close_from_each_other l with _ | _
    · simp [h1, h2]
    · simp [h1, h2]

/-! ## Lemmas about the attack scan -/

theorem attackShips_of_no_ship (l : List Ship) (x y : Int)
    (h : ∀ s ∈ l, s.is_on_coordinate x y = false) :
    attackShips l x y = ((false, false), l) := by
  induction l with
  | nil => rfl
  | cons s rest ih =>
    rw [attackShips, if_neg (by rw [h s (List.mem_cons_self s rest)]; simp)]
    rw [ih (fun t ht => h t (List.mem_cons_of_mem _ ht))]

theorem attackShips_hit (l : List Ship) (x y : Int) (i : Nat) (hi : i < l.length)
    (hon : (l.get ⟨i, hi⟩).is_on_coordinate x y = true)
    (hbefore : ∀ j, (hj : j < i) → (l.get ⟨j, by omega⟩).is_on_coordinate x y = false) :
    attackShips l x y =
      ((true, ((l.get ⟨i, hi⟩).gets_damage_at x y).has_sunk),
        l.set i ((l.get ⟨i, hi⟩).gets_damage_at x y)) := by
  induction l generalizing i with
  | nil => exact absurd hi (by simp)
  | cons s rest ih =>
    cases i with
    | zero =>
      rw [attackShips, if_pos (show s.is_on_coordinate x y = true from hon)]
      rfl
    | succ n =>
      have hs : s.is_on_coordinate x y = false := hbefore 0 (Nat.succ_pos n)
      rw [attackShips, if_neg (by rw [hs]; simp)]
      have hn : n < rest.length := by simpa using hi
      rw [ih n hn hon (fun j hj => hbefore (j + 1) (by omega))]
      rfl

theorem Ship.is_on_coordinate_gets_damage_at (s : Ship) (x y a b : Int) :
    (s.gets_damage_at x y).is_on_coordinate a b = s.is_on_coordinate a b := by
  rw [Ship.is_on_coordinate, Ship.is_on_coordinate, Ship.gets_damage_at_get_all_coordinates]

/-! ## Claim C8 -/

/-- C8: for every well-formed `Ship`, the damaged-cell set stays a subset of
the occupied cells and only grows under `gets_damage_at`; damaging a
non-occupied coordinate is a no-op; damaging the same occupied coordinate
twice leaves `number_damages` unchanged; and `has_sunk` holds iff every
occupied cell is damaged. -/
theorem claim_C8 (s : Ship) (x y : Int) (hwf : s.WF) :
    (s.gets_damage_at x y).set_coordinates_damages ⊆
      (s.gets_damage_at x y).get_all_coordinates ∧
    s.set_coordinates_damages ⊆ (s.gets_damage_at x y).set_coordinates_damages ∧
    (s.is_on_coordinate x y = false → s.gets_damage_at x y = s) ∧
    (s.is_on_coordinate x y = true →
      ((s.gets_damage_at x y).gets_damage_at x y).number_damages =
        (s.gets_damage_at x y).number_damages) ∧
    (s.has_sunk = true ↔ ∀ c ∈ s.get_all_coordinates, c ∈ s.set_coordinates_damages) := by
  refine ⟨(Ship.gets_damage_at_WF s hwf x y).2.2.2, ?_, ?_, ?_, ?_⟩
  · rw [Ship.gets_damage_at]
    split
    · exact Finset.subset_insert _ _
    · exact Finset.Subset.refl _
  · intro h
    rw [Ship.gets_damage_at, if_neg (by rw [h]; simp)]
  · intro h
    have h2 : (s.gets_damage_at x y).is_on_coordinate x y = true := by
      rw [Ship.is_on_coordinate_gets_damage_at]
      exact h
    have hset : ((s.gets_damage_at x y).gets_damage_at x y).set_coordinates_damages =
        (s.gets_damage_at x y).set_coordinates_damages := by
      conv_lhs => rw [Ship.gets_damage_at, if_pos h2]
      rw [Ship.gets_damage_at, if_pos h]
      simp [Finset.insert_idem]
    rw [Ship.number_damages, Ship.number_damages, hset]
  · rw [Ship.has_sunk_iff s hwf, Finset.subset_iff]

/-- Witness for C8 at a concrete ship and cell. -/
theorem claim_C8_witness :
    Ship.WF ⟨3, 3, 5, 3, ∅⟩ ∧
    ((⟨3, 3, 5, 3, ∅⟩ : Ship).gets_damage_at 4 3).set_coordinates_damages ⊆
      ((⟨3, 3, 5, 3, ∅⟩ : Ship).gets_damage_at 4 3).get_all_coordinates ∧
    (⟨3, 3, 5, 3, ∅⟩ : Ship).set_coordinates_damages ⊆
      ((⟨3, 3, 5, 3, ∅⟩ : Ship).gets_damage_at 4 3).set_coordinates_damages ∧
    ((⟨3, 3, 5, 3, ∅⟩ : Ship).is_on_coordinate 4 3 = false →
      (⟨3, 3, 5, 3, ∅⟩ : Ship).gets_damage_at 4 3 = ⟨3, 3, 5, 3, ∅⟩) ∧
    ((⟨3, 3, 5, 3, ∅⟩ : Ship).is_on_coordinate 4 3 = true →
      (((⟨3, 3, 5, 3, ∅⟩ : Ship).gets_damage_at 4 3).gets_damage_at 4 3).number_damages =
        ((⟨3, 3, 5, 3, ∅⟩ : Ship).gets_damage_at 4 3).number_damages) ∧
    ((⟨3, 3, 5, 3, ∅⟩ : Ship).has_sunk = true ↔
      ∀ c ∈ (⟨3, 3, 5, 3, ∅⟩ : Ship).get_all_coordinates,
        c ∈ (⟨3, 3, 5, 3, ∅⟩ : Ship).set_coordinates_damages) :=
  ⟨by decide, claim_C8 ⟨3, 3, 5, 3, ∅⟩ 4 3 (by decide)⟩

/-! ## Claim C9 -/

/-- C9: `Ship` construction succeeds for corner pairs that agree in at least
one axis, in either corner order yielding the same ship, with `length` equal
to the span along the differing axis plus one and `get_all_coordinates` the
straight segment between the normalised corners (of cardinality `length`);
corners differing in both axes are rejected. -/
theorem claim_C9 (x1 y1 x2 y2 : Int) :
    ((x1 = x2 ∨ y1 = y2) →
      ∃ s : Ship,
        mkShip (x1, y1) (x2, y2) = Except.ok s ∧
        mkShip (x2, y2) (x1, y1) = Except.ok s ∧
        s.length = ((max (x1 - x2).natAbs (y1 - y2).natAbs : Nat) : Int) + 1 ∧
        s.get_all_coordinates.card = s.length.toNat ∧
        (∀ a b : Int, (a, b) ∈ s.get_all_coordinates ↔
          (min x1 x2 ≤ a ∧ a ≤ max x1 x2 ∧ min y1 y2 ≤ b ∧ b ≤ max y1 y2))) ∧
    (x1 ≠ x2 → y1 ≠ y2 → ∃ e, mkShip (x1, y1) (x2, y2) = Except.error e) := by
  constructor
  · intro hor
    have hwf : Ship.WF ⟨min x1 x2, min y1 y2, max x1 x2, max y1 y2, ∅⟩ := by
      refine ⟨min_le_max, min_le_max, ?_, Finset.empty_subset _⟩
      rcases hor with h | h
      · left
        simp [h]
      · right
        simp [h]
    refine ⟨⟨min x1 x2, min y1 y2, max x1 x2, max y1 y2, ∅⟩, ?_, ?_, ?_, ?_, ?_⟩
    · exact mkShip_ok_of (x1, y1) (x2, y2) hor
    · have h := mkShip_ok_of (x2, y2) (x1, y1) (by tauto)
      rw [h]
      rw [min_comm x2 x1, min_comm y2 y1, max_comm x2 x1, max_comm y2 y1]
    · rw [Ship.length]
      by_cases hx : x1 = x2
      · rw [if_pos (by simp [Ship.is_vertical, hx])]
        show (y1 ⊔ y2) - (y1 ⊓ y2) + 1 = _
        omega
      · have hy : y1 = y2 := hor.resolve_left hx
        rw [if_neg (by simp only [Ship.is_vertical, beq_iff_eq, inf_eq_sup]; exact hx)]
        show (x1 ⊔ x2) - (x1 ⊓ x2) + 1 = _
        omega
    · exact Ship.card_get_all_coordinates _ hwf
    · intro a b
      exact Ship.mem_get_all_coordinates _ hwf a b
  · intro hx hy
    exact mkShip_error_of (x1, y1) (x2, y2) hx hy

/-- Witness for C9: a vertical ship from either corner order, and a rejected
diagonal pair. -/
theorem claim_C9_witness :
    (∃ s : Ship,
        mkShip (2, 5) (2, 9) = Except.ok s ∧
        mkShip (2, 9) (2, 5) = Except.ok s ∧
        s.length = ((max ((2 : Int) - 2).natAbs ((5 : Int) - 9).natAbs : Nat) : Int) + 1 ∧
        s.get_all_coordinates.card = s.length.toNat ∧
        (∀ a b : Int, (a, b) ∈ s.get_all_coordinates ↔
          (min (2 : Int) 2 ≤ a ∧ a ≤ max (2 : Int) 2 ∧
           min (5 : Int) 9 ≤ b ∧ b ≤ max (5 : Int) 9))) ∧
    (∃ e, mkShip (1, 2) (3, 4) = Except.error e) :=
  ⟨(claim_C9 2 5 2 9).1 (Or.inl rfl), (claim_C9 1 2 3 4).2 (by decide) (by decide)⟩

/-! ## Claim C1 -/

/-- C1 (refuted, code bug): `Board.is_attacked_at` never writes to
`set_coordinates_previous_shots`; the shot-history set of any board is left
unchanged by every attack, so it never receives the attacked coordinate
(it stays empty forever, since construction initialises it empty). -/
theorem claim_C1 :
    (∀ (b : Board) (x y : Int),
      ((b.is_attacked_at x y).2).set_coordinates_previous_shots =
        b.set_coordinates_previous_shots) ∧
    (∀ (l : List Ship) (b : Board),
      mkBoard l = Except.ok b → b.set_coordinates_previous_shots = ∅) := by
  constructor
  · intro b x y
    rfl
  · intro l b h
    rw [mkBoard_ok_iff] at h
    rw [h.2.2]

/-! ## Claim C4 -/

theorem too_close_eq_true_iff (l : List Ship) (hwf : ∀ s ∈ l, s.WF) :
    are_some_ships_too_close_from_each_other l = true ↔
      ∃ i j, ∃ (hi : i < l.length) (hj : j < l.length), i ≠ j ∧
        (l.get ⟨i, hi⟩).is_near_ship (l.get ⟨j, hj⟩) = true := by
  constructor
  · intro h
    by_contra hcon
    push_neg at hcon
    have hfalse : are_some_ships_too_close_from_each_other l = false := by
      rw [too_close_eq_false_iff, List.pairwise_iff_get]
      intro i j hij hnear
      exact hcon i.1 j.1 i.2 j.2 (by omega) (by simpa using hnear)
    rw [hfalse] at h
    cases h
  · rintro ⟨i, j, hi, hj, hne, hnear⟩
    by_contra hfalse
    have hfalse' : are_some_ships_too_close_from_each_other l = false := by
      cases hb : are_some_ships_too_close_from_each_other l
      · rfl
      · exact absurd hb hfalse
    rw [too_close_eq_false_iff, List.pairwise_iff_get] at hfalse'
    rcases Nat.lt_or_ge i j with hlt | hge
    · exact hfalse' ⟨i, hi⟩ ⟨j, hj⟩ hlt hnear
    · have hlt : j < i := Nat.lt_of_le_of_ne hge (fun h => hne h.symm)
      have hsym : (l.get ⟨j, hj⟩).is_near_ship (l.get ⟨i, hi⟩) = true :=
        (Ship.is_near_ship_symm _ _ (hwf _ (l.get_mem _ _)) (hwf _ (l.get_mem _ _))).mp hnear
      exact hfalse' ⟨j, hj⟩ ⟨i, hi⟩ hlt hsym

/-- C4: for a fleet of well-formed ships, `Board` construction fails exactly
when the multiset of ship lengths differs from `{1, 2, 3, 4, 5}` or some pair
of distinct ships is mutually near (a cell of one inside the other's bounding
box expanded by one); on success the board is exactly the given fleet with an
empty shot history (all-or-nothing construction). -/
theorem claim_C4 (l : List Ship) (hwf : ∀ s ∈ l, s.WF) :
    ((∃ e, mkBoard l = Except.error e) ↔
      ((↑(l.map Ship.length) : Multiset Int) ≠ {1, 2, 3, 4, 5} ∨
       ∃ i j, ∃ (hi : i < l.length) (hj : j < l.length), i ≠ j ∧
         (l.get ⟨i, hi⟩).is_near_ship (l.get ⟨j, hj⟩) = true)) ∧
    (∀ b, mkBoard l = Except.ok b →
      b.list_ships = l ∧ b.set_coordinates_previous_shots = ∅) := by
  have hm : (↑(l.map Ship.length) : Multiset Int) = ({1, 2, 3, 4, 5} : Multiset Int) ↔
      lengths_of_ships_correct (l.map Ship.length) = true := by
    rw [show ({1, 2, 3, 4, 5} : Multiset Int) = (([1, 2, 3, 4, 5] : List Int) : Multiset Int)
      from rfl, Multiset.coe_eq_coe, lengths_of_ships_correct_iff_perm]
  constructor
  · rw [mkBoard_error_iff, too_close_eq_true_iff l hwf]
    constructor
    · rintro (h | h)
      · left
        rw [Ne, hm, h]
        simp
      · right
        exact h
    · rintro (h | h)
      · left
        cases hb : lengths_of_ships_correct (l.map Ship.length)
        · rfl
        · exact absurd (hm.mpr hb) h
      · right
        exact h
  · intro b hb
    rw [mkBoard_ok_iff] at hb
    obtain ⟨-, -, rfl⟩ := hb
    exact ⟨rfl, rfl⟩

/-- The five-ship fleet of the repository's sandbox code
(`player.py.__main__`): lengths 1, 2, 3, 4, 5, mutually distant. -/
def fleetA : List Ship :=
  [⟨1, 1, 1, 1, ∅⟩, ⟨3, 3, 3, 4, ∅⟩, ⟨5, 3, 5, 5, ∅⟩, ⟨7, 1, 7, 4, ∅⟩, ⟨9, 3, 9, 7, ∅⟩]

/-- Witness for C4 at the sandbox fleet. -/
theorem claim_C4_witness :
    (∀ s ∈ fleetA, s.WF) ∧
    (((∃ e, mkBoard fleetA = Except.error e) ↔
      ((↑(fleetA.map Ship.length) : Multiset Int) ≠ {1, 2, 3, 4, 5} ∨
       ∃ i j, ∃ (hi : i < fleetA.length) (hj : j < fleetA.length), i ≠ j ∧
         (fleetA.get ⟨i, hi⟩).is_near_ship (fleetA.get ⟨j, hj⟩) = true)) ∧
    (∀ b, mkBoard fleetA = Except.ok b →
      b.list_ships = fleetA ∧ b.set_coordinates_previous_shots = ∅)) :=
  ⟨by decide, claim_C4 fleetA (by decide)⟩

/-! ## Claim C3 -/

/-- C3: on a validly constructed board, an attack at a cell occupied by some
ship damages exactly that ship there and reports a hit, with the sunk flag
true iff the ship is then fully damaged; an attack at an unoccupied cell
returns `(false, false)` and changes nothing. -/
theorem claim_C3 (l : List Ship) (b : Board) (x y : Int)
    (hok : mkBoard l = Except.ok b) (hwf : ∀ s ∈ l, s.WF) :
    ((∀ s ∈ l, s.is_on_coordinate x y = false) →
      b.is_attacked_at x y = ((false, false), b)) ∧
    (∀ i (hi : i < l.length), (l.get ⟨i, hi⟩).is_on_coordinate x y = true →
      (b.is_attacked_at x y).1.1 = true ∧
      ((b.is_attacked_at x y).1.2 = true ↔
        ∀ c ∈ (l.get ⟨i, hi⟩).get_all_coordinates,
          c ∈ insert (x, y) (l.get ⟨i, hi⟩).set_coordinates_damages) ∧
      (b.is_attacked_at x y).2.list_ships =
        l.set i ((l.get ⟨i, hi⟩).gets_damage_at x y) ∧
      (b.is_attacked_at x y).2.set_coordinates_previous_shots =
        b.set_coordinates_previous_shots) := by
  rw [mkBoard_ok_iff] at hok
  obtain ⟨hlen, hfar, rfl⟩ := hok
  constructor
  · intro hnone
    simp only [Board.is_attacked_at]
    rw [attackShips_of_no_ship l x y hnone]
  · intro i hi hon
    have hbefore : ∀ j, (hj : j < i) → (l.get ⟨j, by omega⟩).is_on_coordinate x y = false := by
      intro j hj
      cases hb : (l.get ⟨j, by omega⟩).is_on_coordinate x y
      · rfl
      · exfalso
        have := valid_unique_occupier l hwf hfar x y j i (by omega) hi hb hon
        omega
    have hatt := attackShips_hit l x y i hi hon hbefore
    have hwfi : (l.get ⟨i, hi⟩).WF := hwf _ (l.get_mem _ _)
    have hwfd : ((l.get ⟨i, hi⟩).gets_damage_at x y).WF :=
      Ship.gets_damage_at_WF _ hwfi x y
    simp only [Board.is_attacked_at]
    rw [hatt]
    refine ⟨rfl, ?_, rfl, by trivial⟩
    show ((l.get ⟨i, hi⟩).gets_damage_at x y).has_sunk = true ↔ _
    rw [Ship.has_sunk_iff _ hwfd, Ship.gets_damage_at_get_all_coordinates]
    have hdam : ((l.get ⟨i, hi⟩).gets_damage_at x y).set_coordinates_damages =
        insert (x, y) (l.get ⟨i, hi⟩).set_coordinates_damages := by
      rw [Ship.gets_damage_at, if_pos hon]
    rw [hdam, Finset.subset_iff]

/-- Witness for C3: the sandbox fleet, attacked at the occupied cell (3, 3)
(ship index 1). -/
theorem claim_C3_witness :
    mkBoard fleetA = Except.ok ⟨fleetA, ∅⟩ ∧
    (∀ s ∈ fleetA, s.WF) ∧
    (((∀ s ∈ fleetA, s.is_on_coordinate 3 3 = false) →
      Board.is_attacked_at ⟨fleetA, ∅⟩ 3 3 = ((false, false), ⟨fleetA, ∅⟩)) ∧
    (∀ i (hi : i < fleetA.length),
      (fleetA.get ⟨i, hi⟩).is_on_coordinate 3 3 = true →
      (Board.is_attacked_at ⟨fleetA, ∅⟩ 3 3).1.1 = true ∧
      ((Board.is_attacked_at ⟨fleetA, ∅⟩ 3 3).1.2 = true ↔
        ∀ c ∈ (fleetA.get ⟨i, hi⟩).get_all_coordinates,
          c ∈ insert (3, 3) (fleetA.get ⟨i, hi⟩).set_coordinates_damages) ∧
      (Board.is_attacked_at ⟨fleetA, ∅⟩ 3 3).2.list_ships =
        fleetA.set i ((fleetA.get ⟨i, hi⟩).gets_damage_at 3 3) ∧
      (Board.is_attacked_at ⟨fleetA, ∅⟩ 3 3).2.set_coordinates_previous_shots =
        (⟨fleetA, ∅⟩ : Board).set_coordinates_previous_shots)) :=
  ⟨rfl, by decide, claim_C3 fleetA ⟨fleetA, ∅⟩ 3 3 rfl (by decide)⟩

/-! ## Claim C10 -/

/-- A board whose length-1 ship sits at (11, 11), outside the 10x10 grid;
`Board` construction never checks grid bounds, so it is accepted. -/
def fleetOff : List Ship :=
  [⟨11, 11, 11, 11, ∅⟩, ⟨1, 1, 2, 1, ∅⟩, ⟨1, 3, 3, 3, ∅⟩, ⟨1, 5, 4, 5, ∅⟩, ⟨1, 7, 5, 7, ∅⟩]

/-- C10 counterexample: `Board` construction never validates that ships lie
on the grid, so a validly constructed board can have a ship at (11, 11);
attacking that out-of-range coordinate returns `(true, true)`, not
`(false, false)`. -/
theorem claim_C10_counterexample :
    mkBoard fleetOff = Except.ok ⟨fleetOff, ∅⟩ ∧
    ¬ onGrid (11, 11) ∧
    (Board.is_attacked_at ⟨fleetOff, ∅⟩ 11 11).1 = (true, true) := by
  refine ⟨rfl, by decide, by decide⟩

/-- C10 amended: for every validly constructed board all of whose ships lie
on the 10x10 grid, an attack at an out-of-range coordinate returns
`(false, false)` and leaves the board (every ship's damage set) unchanged. -/
theorem claim_C10 (l : List Ship) (b : Board) (x y : Int)
    (hok : mkBoard l = Except.ok b)
    (hgrid : ∀ s ∈ l, ∀ c ∈ s.get_all_coordinates, onGrid c)
    (hout : ¬ onGrid (x, y)) :
    b.is_attacked_at x y = ((false, false), b) := by
  rw [mkBoard_ok_iff] at hok
  obtain ⟨-, -, rfl⟩ := hok
  have hnone : ∀ s ∈ l, s.is_on_coordinate x y = false := by
    intro s hs
    cases hb : s.is_on_coordinate x y
    · rfl
    · exfalso
      rw [Ship.is_on_coordinate, decide_eq_true_eq] at hb
      exact hout (hgrid s hs _ hb)
  simp only [Board.is_attacked_at]
  rw [attackShips_of_no_ship l x y hnone]

/-- Witness for the amended C10: the in-grid sandbox fleet attacked at
(11, 11). -/
theorem claim_C10_witness :
    mkBoard fleetA = Except.ok ⟨fleetA, ∅⟩ ∧
    (∀ s ∈ fleetA, ∀ c ∈ s.get_all_coordinates, onGrid c) ∧
    ¬ onGrid (11, 11) ∧
    Board.is_attacked_at ⟨fleetA, ∅⟩ 11 11 = ((false, false), ⟨fleetA, ∅⟩) :=
  ⟨rfl, by decide, by decide,
    claim_C10 fleetA ⟨fleetA, ∅⟩ 11 11 rfl (by decide) (by decide)⟩

/-! ## The 10x10 grid as lists -/

def oneToTen : List Int := [1, 2, 3, 4, 5, 6, 7, 8, 9, 10]

/-- The 100 grid coordinates in generation order, as built by
`PlayerAutomatic.__init__`: `[(i, j) for i in range(1, 11) for j in range(1, 11)]`. -/
def gridCoordsList : List Coord :=
  oneToTen.flatMap fun i => oneToTen.map fun j => (i, j)

/-- The content of `set(permutations(range(1, 11), 2))` from
`generate_ships_automatically`: the ordered pairs of DISTINCT members of
1..10.  (Python set iteration order is unspecified; a canonical enumeration
order is fixed here, and all random choices from it go through an oracle
index, so every element stays reachable.) -/
def freeInit : List Coord :=
  gridCoordsList.filter fun c => c.1 != c.2

theorem mem_gridCoordsList_onGrid : ∀ c ∈ gridCoordsList, onGrid c := by decide

/-! ## Claim C2 -/

/-- C2 (refuted, code bug): the generator's initial free-coordinate set is
`set(permutations(range(1, 11), 2))`, the ordered pairs of DISTINCT elements:
it has only 90 members and misses every diagonal cell (i, i) of the 100-cell
grid, so it does not initially contain every coordinate of the 10x10 grid. -/
theorem claim_C2 :
    freeInit.length = 90 ∧
    gridCoordsList.length = 100 ∧
    (∀ i ∈ oneToTen, ((i, i) : Coord) ∈ gridCoordsList ∧ ((i, i) : Coord) ∉ freeInit) ∧
    (∀ c ∈ gridCoordsList, c.1 ≠ c.2 → c ∈ freeInit) := by
  refine ⟨by decide, by decide, by decide, by decide⟩

/-! ## PlayerRandom (src/battleship/player.py) -/

/-- The strategy state of a `PlayerRandom` object. -/
structure RandomState where
  set_positions_previously_attacked : Finset Coord
  list_ships_opponent_previously_sunk : List Ship
  last_attack_coord : Option Coord

namespace PlayerRandom

/-- `PlayerRandom._get_random_coordinates`: `randint(1, SIZE_X)` and
`randint(1, SIZE_Y)` with SIZE 10; the oracle entry supplies the two draws. -/
def get_random_coordinates (d : Nat × Nat) : Coord :=
  (((1 + d.1 % 10 : Nat) : Int), ((1 + d.2 % 10 : Nat) : Int))

/-- `PlayerRandom._is_position_near_previously_sunk_ship`. -/
def is_position_near_previously_sunk_ship (st : RandomState) (coord : Coord) : Bool :=
  st.list_ships_opponent_previously_sunk.any fun ship_opponent =>
    ship_opponent.has_sunk && ship_opponent.is_near_coordinate coord.1 coord.2

/-- `PlayerRandom.select_random_coordinates_to_attack`: rejection sampling;
one oracle entry is consumed per draw, `none` models an exhausted oracle
(the Python loop would keep drawing). -/
def select_random_coordinates_to_attack (st : RandomState) :
    List (Nat × Nat) → Option Coord
  | [] => none
  | d :: rest =>
      let coord_random := get_random_coordinates d
      if decide (coord_random ∈ st.set_positions_previously_attacked) ||
          is_position_near_previously_sunk_ship st coord_random then
        select_random_coordinates_to_attack st rest
      else
        some coord_random

/-- `PlayerRandom.select_coordinates_to_attack`: draws an acceptable
coordinate, records it into `set_positions_previously_attacked` and
`last_attack_coord`, and returns it together with the updated state. -/
def select_coordinates_to_attack (st : RandomState) (o : List (Nat × Nat)) :
    Option (Coord × RandomState) :=
  match select_random_coordinates_to_attack st o with
  | none => none
  | some position_to_attack =>
      some (position_to_attack,
        { st with
          set_positions_previously_attacked :=
            insert position_to_attack st.set_positions_previously_attacked
          last_attack_coord := some position_to_attack })

theorem select_random_spec (st : RandomState) (o : List (Nat × Nat)) (c : Coord)
    (h : select_random_coordinates_to_attack st o = some c) :
    c ∉ st.set_positions_previously_attacked ∧
    is_position_near_previously_sunk_ship st c = false := by
  induction o with
  | nil => cases h
  | cons d rest ih =>
    rw [select_random_coordinates_to_attack] at h
    split at h
    · exact ih h
    · next hcond =>
      obtain rfl := Option.some.inj h
      rw [Bool.or_eq_true, not_or] at hcond
      obtain ⟨h1, h2⟩ := hcond
      constructor
      · intro hmem
        exact h1 (decide_eq_true hmem)
      · cases hb : is_position_near_previously_sunk_ship st (get_random_coordinates d)
        · rfl
        · exact absurd hb h2

end PlayerRandom

/-! ## Claim C7 -/

/-- C7: every coordinate returned by the random-avoidance AI is not in
`set_positions_previously_attacked` at the moment it is chosen and is
inserted into it afterwards; and (the recorded ships being sunk) it is not
within the adjacency zone of any ship in
`list_ships_opponent_previously_sunk`. -/
theorem claim_C7 (st : RandomState) (o : List (Nat × Nat)) (c : Coord)
    (st' : RandomState)
    (h : PlayerRandom.select_coordinates_to_attack st o = some (c, st'))
    (hsunk : ∀ s ∈ st.list_ships_opponent_previously_sunk, s.has_sunk = true) :
    c ∉ st.set_positions_previously_attacked ∧
    st'.set_positions_previously_attacked =
      insert c st.set_positions_previously_attacked ∧
    (∀ s ∈ st.list_ships_opponent_previously_sunk,
      s.is_near_coordinate c.1 c.2 = false) := by
  rw [PlayerRandom.select_coordinates_to_attack] at h
  rcases hsel : PlayerRandom.select_random_coordinates_to_attack st o with _ | c0
  · rw [hsel] at h
    cases h
  · rw [hsel] at h
    injection h with h'
    injection h' with h1 h2
    subst h1
    subst h2
    obtain ⟨hmem, hnear⟩ := PlayerRandom.select_random_spec st o c0 hsel
    refine ⟨hmem, rfl, ?_⟩
    intro s hs
    cases hb : s.is_near_coordinate c0.1 c0.2
    · rfl
    · exfalso
      have : PlayerRandom.is_position_near_previously_sunk_ship st c0 = true := by
        rw [PlayerRandom.is_position_near_previously_sunk_ship, List.any_eq_true]
        exact ⟨s, hs, by rw [hsunk s hs, hb]; rfl⟩
      rw [this] at hnear
      cases hnear

/-- Witness for C7: a fresh `PlayerRandom` state and a single draw. -/
theorem claim_C7_witness :
    ((1, 1) : Coord) ∉
      (⟨∅, [], none⟩ : RandomState).set_positions_previously_attacked ∧
    (⟨{(1, 1)}, [], some (1, 1)⟩ : RandomState).set_positions_previously_attacked =
      insert (1, 1) (⟨∅, [], none⟩ : RandomState).set_positions_previously_attacked ∧
    (∀ s ∈ (⟨∅, [], none⟩ : RandomState).list_ships_opponent_previously_sunk,
      s.is_near_coordinate 1 1 = false) :=
  claim_C7 ⟨∅, [], none⟩ [(0, 0)] (1, 1) ⟨{(1, 1)}, [], some (1, 1)⟩ rfl (by decide)

/-! ## PlayerAutomatic (src/battleship/player.py) -/

/-- The strategy state of a `PlayerAutomatic` object. -/
structure AutoState where
  list_coords_to_attack : List Coord
  first_go : Bool
  coord_to_attack : Coord
deriving DecidableEq

namespace PlayerAutomatic

/-- `PlayerAutomatic.__init__`: the full candidate list in generation order,
`first_go = True`, and a random first target (its index supplied by the
oracle argument `k`). -/
def initState (k : Nat) : AutoState :=
  { list_coords_to_attack := gridCoordsList
    first_go := true
    coord_to_attack := gridCoordsList.getD (k % gridCoordsList.length) (0, 0) }

/-- `PlayerAutomatic.did_we_just_hit_a_ship`. -/
def did_we_just_hit_a_ship (coord_x coord_y : Int) (opponent_ships : List Ship) : Bool :=
  opponent_ships.any fun ship => ship.is_on_coordinate coord_x coord_y

/-- `PlayerAutomatic.did_we_just_sink_a_ship`: the first occupying ship's
`has_sunk()`; Python returns `None` when no ship occupies the cell. -/
def did_we_just_sink_a_ship (coord_x coord_y : Int) (opponent_ships : List Ship) :
    Option Bool :=
  (opponent_ships.find? fun ship => ship.is_on_coordinate coord_x coord_y).map Ship.has_sunk

/-- The resampling loop of the hit-without-sinking branch:
`while self.coord_to_attack not in self.list_coords_to_attack:`
`  self.coord_to_attack = random.choice([(x+1,y), (x-1,y), (x,y+1), (x,y-1),`
`                                        random.choice(self.list_coords_to_attack)])`.
One oracle pair is consumed per iteration: the first component selects among
the five candidates, the second is the fresh random draw from the list (whose
`random.choice` would raise on an empty list, modelled as `none`). -/
def huntLoop (x y : Int) (lst : List Coord) : Coord → List (Nat × Nat) → Option Coord
  | c, o =>
      if c ∈ lst then some c
      else
        match o with
        | [] => none
        | (a, b) :: rest =>
            if lst.isEmpty then none
            else
              let fresh := lst.getD (b % lst.length) (0, 0)
              let cands : List Coord := [(x + 1, y), (x - 1, y), (x, y + 1), (x, y - 1), fresh]
              huntLoop x y lst (cands.getD (a % 5) (0, 0)) rest

/-- `PlayerAutomatic.select_coordinates_to_attack`.  The opponent's ship list
(as the AI reads it at this turn) is a parameter; `none` models either a
crash of `list.remove` / `random.choice` or an exhausted oracle.  On the
first go the stored random coordinate is returned unchanged; otherwise the
previous target is removed from the candidate list, the diagonal neighbours
of a hit are pruned, and the next target is drawn. -/
def select_coordinates_to_attack (st : AutoState) (opponent_ships : List Ship)
    (o : List (Nat × Nat)) : Option (Coord × AutoState) :=
  if st.first_go then
    some (st.coord_to_attack, { st with first_go := false })
  else if st.coord_to_attack ∉ st.list_coords_to_attack then
    none
  else
    let lst := st.list_coords_to_attack.erase st.coord_to_attack
    let x := st.coord_to_attack.1
    let y := st.coord_to_attack.2
    if did_we_just_hit_a_ship x y opponent_ships then
      let diag_coords : List Coord :=
        [(x + 1, y + 1), (x + 1, y - 1), (x - 1, y + 1), (x - 1, y - 1)]
      let lst2 := lst.filter fun coord => decide (coord ∉ diag_coords)
      if did_we_just_sink_a_ship x y opponent_ships == some false then
        match huntLoop x y lst2 st.coord_to_attack o with
        | none => none
        | some c => some (c, ⟨lst2, false, c⟩)
      else
        match o with
        | [] => none
        | (a, _) :: _ =>
            if lst2.isEmpty then none
            else
              let c := lst2.getD (a % lst2.length) (0, 0)
              some (c, ⟨lst2, false, c⟩)
    else
      match o with
      | [] => none
      | (a, _) :: _ =>
          if lst.isEmpty then none
          else
            let c := lst.getD (a % lst.length) (0, 0)
            some (c, ⟨lst, false, c⟩)

/-- A sequence of game turns: per turn, the opponent's ship list as the AI
sees it and the oracle for that call; collects the returned coordinates. -/
def runAuto : AutoState → List (List Ship × List (Nat × Nat)) →
    Option (List Coord × AutoState)
  | st, [] => some ([], st)
  | st, (opp, o) :: turns =>
      match select_coordinates_to_attack st opp o with
      | none => none
      | some (c, st') =>
          match runAuto st' turns with
          | none => none
          | some (outs, stF) => some (c :: outs, stF)

/-- The four diagonal neighbours pruned by the code. -/
def diagOf (prev : Coord) : List Coord :=
  [(prev.1 + 1, prev.2 + 1), (prev.1 + 1, prev.2 - 1),
   (prev.1 - 1, prev.2 + 1), (prev.1 - 1, prev.2 - 1)]

/-- The diagonal-avoidance chain property over a run: whenever a previous
shot `prev` had hit a ship without sinking it (as observed against the ship
list of the following turn), the coordinate returned by that following call
is not a diagonal neighbour of `prev`.  `fg` is true only before the first
move, when there is no meaningful previous shot. -/
def DiagOk : Bool → Coord → List (List Ship) → List Coord → Prop
  | fg, prev, opp :: opps, c :: outs =>
      (fg = false →
        did_we_just_hit_a_ship prev.1 prev.2 opp = true →
        did_we_just_sink_a_ship prev.1 prev.2 opp = some false →
        c ∉ diagOf prev) ∧
      DiagOk false c opps outs
  | _, _, _, _ => True

end PlayerAutomatic

/-! ## Lemmas about `PlayerAutomatic` -/

theorem bool_not_true {b : Bool} (h : ¬ b = true) : b = false := by
  cases b
  · rfl
  · exact absurd rfl h

theorem getD_mod_mem (l : List Coord) (hne : l.isEmpty = false) (a : Nat) :
    l.getD (a % l.length) (0, 0) ∈ l := by
  have hlen : 0 < l.length := by
    cases l
    · simp at hne
    · simp
  have hlt : a % l.length < l.length := Nat.mod_lt _ hlen
  rw [List.getD_eq_getElem?_getD, List.getElem?_eq_getElem hlt]
  exact List.getElem_mem _

namespace PlayerAutomatic

theorem huntLoop_mem (x y : Int) (lst : List Coord) (c : Coord) (o : List (Nat × Nat))
    (r : Coord) (h : huntLoop x y lst c o = some r) : r ∈ lst := by
  induction o generalizing c with
  | nil =>
    rw [huntLoop] at h
    split at h
    · next hmem =>
      obtain rfl := Option.some.inj h
      exact hmem
    · cases h
  | cons d rest ih =>
    obtain ⟨a, b⟩ := d
    rw [huntLoop] at h
    split at h
    · next hmem =>
      obtain rfl := Option.some.inj h
      exact hmem
    · dsimp only at h
      split at h
      · cases h
      · exact ih _ h

theorem select_spec (st : AutoState) (opp : List Ship) (o : List (Nat × Nat))
    (c : Coord) (st' : AutoState)
    (h : select_coordinates_to_attack st opp o = some (c, st')) :
    st'.first_go = false ∧
    st'.coord_to_attack = c ∧
    (st.first_go = true →
      c = st.coord_to_attack ∧
      st'.list_coords_to_attack = st.list_coords_to_attack) ∧
    (st.first_go = false →
      c ∈ st'.list_coords_to_attack ∧
      (∀ d ∈ st'.list_coords_to_attack,
        d ∈ st.list_coords_to_attack.erase st.coord_to_attack) ∧
      (st.list_coords_to_attack.Nodup → st'.list_coords_to_attack.Nodup) ∧
      (did_we_just_hit_a_ship st.coord_to_attack.1 st.coord_to_attack.2 opp = true →
        did_we_just_sink_a_ship st.coord_to_attack.1 st.coord_to_attack.2 opp = some false →
        c ∉ diagOf st.coord_to_attack)) := by
  rw [select_coordinates_to_attack] at h
  by_cases hfg : st.first_go = true
  · rw [if_pos hfg] at h
    injection h with h'
    injection h' with h1 h2
    subst h1
    subst h2
    exact ⟨rfl, rfl, fun _ => ⟨rfl, rfl⟩, fun hf => absurd hfg (by rw [hf]; simp)⟩
  · have hf : st.first_go = false := by
      cases hb : st.first_go
      · rfl
      · exact absurd hb hfg
    rw [if_neg hfg] at h
    split at h
    · cases h
    next hmem =>
      rw [not_not] at hmem
      dsimp only at h
      split at h
      next hhit =>
        split at h
        next hsunkb =>
          -- hit without sinking: the hunt loop chooses the next target
          split at h
          · cases h
          next c1 heq =>
            injection h with h'
            injection h' with h1 h2
            subst h1
            subst h2
            have hc1 := huntLoop_mem _ _ _ _ _ _ heq
            have hc1' := List.mem_filter.mp hc1
            refine ⟨rfl, rfl, fun hcon => absurd hcon (by rw [hf]; simp), fun _ => ?_⟩
            refine ⟨hc1, ?_, ?_, ?_⟩
            · intro d hd
              exact (List.mem_filter.mp hd).1
            · intro hnd
              exact List.Nodup.filter _ (hnd.erase _)
            · intro _ _
              exact of_decide_eq_true hc1'.2
        next hsunkb =>
          -- hit and (sunk, or no ship found): plain random draw from lst2
          split at h
          · cases h
          · split at h
            · cases h
            next hne =>
              injection h with h'
              injection h' with h1 h2
              subst h1
              subst h2
              have hne' := bool_not_true hne
              refine ⟨rfl, rfl, fun hcon => absurd hcon (by rw [hf]; simp), fun _ => ?_⟩
              refine ⟨getD_mod_mem _ hne' _, ?_, ?_, ?_⟩
              · intro d hd
                exact (List.mem_filter.mp hd).1
              · intro hnd
                exact List.Nodup.filter _ (hnd.erase _)
              · intro _ hs2
                exact absurd (by rw [hs2]; rfl) hsunkb
      next hhit =>
        -- miss: plain random draw from the erased list
        split at h
        · cases h
        · split at h
          · cases h
          next hne =>
            injection h with h'
            injection h' with h1 h2
            subst h1
            subst h2
            have hne' := bool_not_true hne
            refine ⟨rfl, rfl, fun hcon => absurd hcon (by rw [hf]; simp), fun _ => ?_⟩
            refine ⟨getD_mod_mem _ hne' _, fun d hd => hd, fun hnd => hnd.erase _, ?_⟩
            intro hhit2 _
            exact absurd hhit2 hhit

/-- The invariant tying the AI state to the coordinates already returned. -/
def AutoInv (visited : List Coord) (st : AutoState) : Prop :=
  st.list_coords_to_attack.Nodup ∧
  (∀ c ∈ st.list_coords_to_attack, c ∈ gridCoordsList) ∧
  visited.Nodup ∧
  (if st.first_go = true then
    visited = [] ∧ st.coord_to_attack ∈ st.list_coords_to_attack
  else
    ∃ vs, visited = vs ++ [st.coord_to_attack] ∧
      st.coord_to_attack ∈ st.list_coords_to_attack ∧
      ∀ v ∈ vs, v ∉ st.list_coords_to_attack)

theorem select_step_inv (visited : List Coord) (st : AutoState) (opp : List Ship)
    (o : List (Nat × Nat)) (c : Coord) (st' : AutoState)
    (hinv : AutoInv visited st)
    (h : select_coordinates_to_attack st opp o = some (c, st')) :
    AutoInv (visited ++ [c]) st' ∧ c ∉ visited ∧ c ∈ gridCoordsList := by
  obtain ⟨hnd, hgrid, hvnd, hrest⟩ := hinv
  obtain ⟨hfg', hcoord, hfirst, hnonfirst⟩ := select_spec st opp o c st' h
  by_cases hfg : st.first_go = true
  · obtain ⟨rfl, hlist⟩ := hfirst hfg
    rw [if_pos hfg] at hrest
    obtain ⟨rfl, hmem⟩ := hrest
    refine ⟨⟨?_, ?_, by simp, ?_⟩, List.not_mem_nil _, hgrid _ hmem⟩
    · rw [hlist]
      exact hnd
    · intro d hd
      rw [hlist] at hd
      exact hgrid d hd
    · rw [if_neg (by rw [hfg']; simp)]
      refine ⟨[], by rw [hcoord], ?_, by simp⟩
      rw [hcoord, hlist]
      exact hmem
  · have hf : st.first_go = false := by
      cases hb : st.first_go
      · rfl
      · exact absurd hb hfg
    obtain ⟨hcmem, hsub, hndp, -⟩ := hnonfirst hf
    rw [if_neg hfg] at hrest
    obtain ⟨vs, rfl, hstmem, hvs⟩ := hrest
    have hcerase : ∀ d ∈ st'.list_coords_to_attack,
        d ≠ st.coord_to_attack ∧ d ∈ st.list_coords_to_attack := by
      intro d hd
      exact (List.Nodup.mem_erase_iff hnd).mp (hsub d hd)
    have hcnotv : c ∉ vs ++ [st.coord_to_attack] := by
      intro hcv
      rcases List.mem_append.mp hcv with hcv | hcv
      · exact (hvs c hcv) (hcerase c hcmem).2
      · exact (hcerase c hcmem).1 (by simpa using hcv)
    refine ⟨⟨hndp hnd, ?_, ?_, ?_⟩, hcnotv, hgrid c (hcerase c hcmem).2⟩
    · intro d hd
      exact hgrid d (hcerase d hd).2
    · rw [List.nodup_append]
      refine ⟨hvnd, List.nodup_singleton c, ?_⟩
      intro a ha hac
      rw [List.mem_singleton] at hac
      subst hac
      exact hcnotv ha
    · rw [if_neg (by rw [hfg']; simp)]
      refine ⟨vs ++ [st.coord_to_attack], by rw [hcoord], ?_, ?_⟩
      · rw [hcoord]
        exact hcmem
      · intro v hv hvin
        rcases List.mem_append.mp hv with hv | hv
        · exact (hvs v hv) (hcerase v hvin).2
        · exact (hcerase v hvin).1 (by simpa using hv)

theorem runAuto_spec (turns : List (List Ship × List (Nat × Nat)))
    (visited : List Coord) (st : AutoState) (outs : List Coord) (stF : AutoState)
    (hinv : AutoInv visited st)
    (h : runAuto st turns = some (outs, stF)) :
    (visited ++ outs).Nodup ∧ (∀ c ∈ outs, c ∈ gridCoordsList) ∧
    DiagOk st.first_go st.coord_to_attack (turns.map Prod.fst) outs := by
  induction turns generalizing visited st outs with
  | nil =>
    rw [runAuto] at h
    injection h with h'
    injection h' with h1 h2
    subst h1
    subst h2
    refine ⟨by simpa using hinv.2.2.1, by simp, trivial⟩
  | cons t rest ih =>
    obtain ⟨opp, o⟩ := t
    rw [runAuto] at h
    split at h
    · cases h
    next c st' hsel =>
      split at h
      · cases h
      next outs' stF' hrun =>
        injection h with h'
        injection h' with h1 h2
        subst h1
        subst h2
        obtain ⟨hfg', hcoord, -, hnonfirst⟩ := select_spec st opp o c st' hsel
        obtain ⟨hinv', hnotv, hcg⟩ := select_step_inv visited st opp o c st' hinv hsel
        obtain ⟨hnd', hgrid', hdiag'⟩ := ih (visited ++ [c]) st' outs' hinv' hrun
        refine ⟨?_, ?_, ?_, ?_⟩
        · rw [show visited ++ c :: outs' = (visited ++ [c]) ++ outs' by simp]
          exact hnd'
        · intro d hd
          rcases List.mem_cons.mp hd with rfl | hd
          · exact hcg
          · exact hgrid' d hd
        · intro hfgf hhit hsunk
          exact ((hnonfirst hfgf).2.2.2) hhit hsunk
        · rw [hfg', hcoord] at hdiag'
          exact hdiag'

end PlayerAutomatic

/-! ## Claim C6 -/

/-- C6: starting from a fresh hunt-adjacency AI, along any completed sequence
of turns the returned coordinates are pairwise distinct and lie on the 10x10
grid, and whenever a previous shot hit a ship without sinking it, the next
returned coordinate is not one of the four diagonal neighbours of that hit
(`DiagOk`). -/
theorem claim_C6 (k : Nat) (turns : List (List Ship × List (Nat × Nat)))
    (outs : List Coord) (stF : AutoState)
    (h : PlayerAutomatic.runAuto (PlayerAutomatic.initState k) turns = some (outs, stF)) :
    outs.Nodup ∧ (∀ c ∈ outs, onGrid c) ∧
    PlayerAutomatic.DiagOk true (PlayerAutomatic.initState k).coord_to_attack
      (turns.map Prod.fst) outs := by
  have hinv : PlayerAutomatic.AutoInv [] (PlayerAutomatic.initState k) := by
    refine ⟨(by decide : gridCoordsList.Nodup), fun c hc => hc, List.nodup_nil, ?_⟩
    rw [if_pos (show (PlayerAutomatic.initState k).first_go = true from rfl)]
    exact ⟨rfl, getD_mod_mem gridCoordsList (by decide) k⟩
  have hspec := PlayerAutomatic.runAuto_spec turns [] (PlayerAutomatic.initState k)
    outs stF hinv h
  refine ⟨by simpa using hspec.1, ?_, hspec.2.2⟩
  intro c hc
  exact mem_gridCoordsList_onGrid c (hspec.2.1 c hc)

/-- A short concrete game for the C6 witness: first move, then a hit at
(1, 1) on an unsunk vertical two-cell ship, then a miss. -/
def c6TurnsW : List (List Ship × List (Nat × Nat)) :=
  [([], []), ([⟨1, 1, 1, 2, ∅⟩], [(0, 0)]), ([], [(0, 0)])]

/-- Witness for C6: a three-turn run of the AI. -/
theorem claim_C6_witness :
    ∃ outs stF,
      PlayerAutomatic.runAuto (PlayerAutomatic.initState 0) c6TurnsW = some (outs, stF) ∧
      outs.Nodup ∧ (∀ c ∈ outs, onGrid c) ∧
      PlayerAutomatic.DiagOk true (PlayerAutomatic.initState 0).coord_to_attack
        (c6TurnsW.map Prod.fst) outs := by
  rcases hrun : PlayerAutomatic.runAuto (PlayerAutomatic.initState 0) c6TurnsW with _ | p
  · have hsome : (PlayerAutomatic.runAuto (PlayerAutomatic.initState 0) c6TurnsW).isSome
        = true := by decide
    rw [hrun] at hsome
    cases hsome
  · obtain ⟨outs, stF⟩ := p
    exact ⟨outs, stF, rfl, claim_C6 0 c6TurnsW outs stF hrun⟩

/-! ## BoardAutomatic.generate_ships_automatically (src/battleship/board.py) -/

theorem mkShip_length (a b : Coord) (s : Ship) (h : mkShip a b = Except.ok s) :
    s.length = ((max (a.1 - b.1).natAbs (a.2 - b.2).natAbs : Nat) : Int) + 1 := by
  obtain ⟨rfl, hor⟩ := mkShip_ok_inv a b s h
  rw [Ship.length]
  by_cases hx : a.1 = b.1
  · rw [if_pos (by simp [Ship.is_vertical, hx])]
    show (a.2 ⊔ b.2) - (a.2 ⊓ b.2) + 1 = _
    omega
  · have hy : a.2 = b.2 := hor.resolve_left hx
    rw [if_neg (by simp only [Ship.is_vertical, beq_iff_eq, inf_eq_sup]; exact hx)]
    show (a.1 ⊔ b.1) - (a.1 ⊓ b.1) + 1 = _
    omega

theorem mkShip_length' (a1 a2 b1 b2 : Int) (s : Ship)
    (h : mkShip (a1, a2) (b1, b2) = Except.ok s) :
    s.length = ((max (a1 - b1).natAbs (a2 - b2).natAbs : Nat) : Int) + 1 :=
  mkShip_length (a1, a2) (b1, b2) s h

/-- A ship constructed from a start coordinate and an endpoint displaced by
`l - 1` along one of the four axis directions has length `l`. -/
theorem mkShip_end_length (start : Coord) (l : Int) (hl : 1 ≤ l) (s : Ship) (e : Coord)
    (he : e = (start.1 + (l - 1), start.2) ∨ e = (start.1, start.2 + (l - 1)) ∨
          e = (start.1 - (l - 1), start.2) ∨ e = (start.1, start.2 - (l - 1)))
    (h : mkShip start e = Except.ok s) : s.length = l := by
  rw [show start = (start.1, start.2) from rfl] at h
  rcases he with rfl | rfl | rfl | rfl
  · have := mkShip_length' start.1 start.2 _ _ s h
    omega
  · have := mkShip_length' start.1 start.2 _ _ s h
    omega
  · have := mkShip_length' start.1 start.2 _ _ s h
    omega
  · have := mkShip_length' start.1 start.2 _ _ s h
    omega

/-- One iteration of the `while not ship_created_successfully` loop per oracle
entry: the first component picks the random start among the remaining free
coordinates (`choice(tuple(free_coords))`), the second picks the endpoint
direction among the four axis candidates.  A candidate is retried when its
cells are not all free (`issubset`), or — for all but the first ship — when
it is near an already placed ship; on acceptance its cells are removed from
the free set (`difference_update`). -/
def tryPlace (length : Int) (placed : List Ship) (first_ship : Bool) :
    List Coord → List (Nat × Nat) → Option (Ship × List Coord × List (Nat × Nat))
  | _, [] => none
  | free, (si, di) :: o =>
      if free.isEmpty then none
      else
        let start_coord := free.getD (si % free.length) (0, 0)
        let ends : List Coord :=
          [(start_coord.1 + (length - 1), start_coord.2),
           (start_coord.1, start_coord.2 + (length - 1)),
           (start_coord.1 - (length - 1), start_coord.2),
           (start_coord.1, start_coord.2 - (length - 1))]
        let end_coord := ends.getD (di % 4) (0, 0)
        match mkShip start_coord end_coord with
        | Except.error _ => none
        | Except.ok new_ship =>
            if ¬ (∀ c ∈ new_ship.get_all_coordinates, c ∈ free) then
              tryPlace length placed first_ship free o
            else if first_ship then
              some (new_ship,
                free.filter (fun c => decide (c ∉ new_ship.get_all_coordinates)), o)
            else if placed.any (fun other_ship => new_ship.is_near_ship other_ship) then
              tryPlace length placed first_ship free o
            else
              some (new_ship,
                free.filter (fun c => decide (c ∉ new_ship.get_all_coordinates)), o)

/-- The outer loops of `generate_ships_automatically`: one ship per length,
lengths in the order `[5, 4, 3, 2, 1]` (the dict keys reversed); each
accepted ship is appended and `first_ship` is cleared. -/
def placeAll : List Int → List Coord → List Ship → Bool → List (Nat × Nat) →
    Option (List Ship)
  | [], _, placed, _, _ => some placed
  | length :: lengths, free, placed, first_ship, o =>
      match tryPlace length placed first_ship free o with
      | none => none
      | some (ship, free2, o2) => placeAll lengths free2 (placed ++ [ship]) false o2

/-- `BoardAutomatic.generate_ships_automatically`. -/
def generate_ships_automatically (o : List (Nat × Nat)) : Option (List Ship) :=
  placeAll [5, 4, 3, 2, 1] freeInit [] true o

theorem tryPlace_spec (length : Int) (placed : List Ship) (first_ship : Bool)
    (free : List Coord) (o : List (Nat × Nat)) (ship : Ship) (free2 : List Coord)
    (o2 : List (Nat × Nat)) (hlen : 1 ≤ length)
    (h : tryPlace length placed first_ship free o = some (ship, free2, o2)) :
    ship.WF ∧
    ship.length = length ∧
    (∀ c ∈ ship.get_all_coordinates, c ∈ free) ∧
    (∀ c ∈ free2, c ∈ free) ∧
    (first_ship = false → ∀ other ∈ placed, ship.is_near_ship other = false) := by
  induction o generalizing free with
  | nil => cases h
  | cons d rest ih =>
    obtain ⟨si, di⟩ := d
    rw [tryPlace] at h
    split at h
    · cases h
    · dsimp only at h
      split at h
      · cases h
      next new_ship hmk =>
        have he4 : di % 4 = 0 ∨ di % 4 = 1 ∨ di % 4 = 2 ∨ di % 4 = 3 := by omega
        have hlength : new_ship.length = length := by
          rcases he4 with h4 | h4 | h4 | h4
          · rw [h4] at hmk
            exact mkShip_end_length _ length hlen new_ship _ (Or.inl rfl) hmk
          · rw [h4] at hmk
            exact mkShip_end_length _ length hlen new_ship _ (Or.inr (Or.inl rfl)) hmk
          · rw [h4] at hmk
            exact mkShip_end_length _ length hlen new_ship _ (Or.inr (Or.inr (Or.inl rfl))) hmk
          · rw [h4] at hmk
            exact mkShip_end_length _ length hlen new_ship _ (Or.inr (Or.inr (Or.inr rfl))) hmk
        split at h
        · exact ih free h
        next hfit =>
          rw [not_not] at hfit
          split at h
          next hfs =>
            injection h with h'
            injection h' with h1 h2
            subst h1
            injection h2 with h3 h4
            subst h3
            subst h4
            refine ⟨mkShip_ok_WF _ _ _ hmk, hlength, hfit, ?_, ?_⟩
            · intro c hc
              exact (List.mem_filter.mp hc).1
            · intro hf0 other hother
              exact absurd hfs (by rw [hf0]; simp)
          · split at h
            · exact ih free h
            next hnear =>
              injection h with h'
              injection h' with h1 h2
              subst h1
              injection h2 with h3 h4
              subst h3
              subst h4
              refine ⟨mkShip_ok_WF _ _ _ hmk, hlength, hfit, ?_, ?_⟩
              · intro c hc
                exact (List.mem_filter.mp hc).1
              · intro _ other hother
                cases hb : new_ship.is_near_ship other
                · rfl
                · exact absurd (List.any_eq_true.mpr ⟨other, hother, hb⟩) hnear

theorem placeAll_spec (lengths : List Int) (free : List Coord) (placed : List Ship)
    (first_ship : Bool) (o : List (Nat × Nat)) (result : List Ship)
    (hfree : ∀ c ∈ free, c ∈ gridCoordsList)
    (hWF : ∀ s ∈ placed, s.WF)
    (hgrid : ∀ s ∈ placed, ∀ c ∈ s.get_all_coordinates, c ∈ gridCoordsList)
    (hfar : placed.Pairwise
      (fun a b => a.is_near_ship b = false ∧ b.is_near_ship a = false))
    (hfirst : first_ship = true → placed = [])
    (hpos : ∀ l ∈ lengths, 1 ≤ l)
    (h : placeAll lengths free placed first_ship o = some result) :
    result.map Ship.length = placed.map Ship.length ++ lengths ∧
    (∀ s ∈ result, s.WF) ∧
    (∀ s ∈ result, ∀ c ∈ s.get_all_coordinates, c ∈ gridCoordsList) ∧
    result.Pairwise (fun a b => a.is_near_ship b = false ∧ b.is_near_ship a = false) := by
  induction lengths generalizing free placed first_ship o with
  | nil =>
    rw [placeAll] at h
    obtain rfl := Option.some.inj h
    exact ⟨by simp, hWF, hgrid, hfar⟩
  | cons length lengths ih =>
    rw [placeAll] at h
    split at h
    · cases h
    next ship free2 o2 htry =>
      obtain ⟨hshipWF, hshiplen, hshipfree, hfree2sub, hshipnear⟩ :=
        tryPlace_spec length placed first_ship free o ship free2 o2
          (hpos length (List.mem_cons_self _ _)) htry
      have hWF' : ∀ s ∈ placed ++ [ship], s.WF := by
        intro s hs
        rcases List.mem_append.mp hs with hs | hs
        · exact hWF s hs
        · rw [List.mem_singleton] at hs
          subst hs
          exact hshipWF
      have hgrid' : ∀ s ∈ placed ++ [ship], ∀ c ∈ s.get_all_coordinates,
          c ∈ gridCoordsList := by
        intro s hs
        rcases List.mem_append.mp hs with hs | hs
        · exact hgrid s hs
        · rw [List.mem_singleton] at hs
          subst hs
          intro c hc
          exact hfree c (hshipfree c hc)
      have hfar' : (placed ++ [ship]).Pairwise
          (fun a b => a.is_near_ship b = false ∧ b.is_near_ship a = false) := by
        rw [List.pairwise_append]
        refine ⟨hfar, List.pairwise_singleton _ _, ?_⟩
        intro a ha b hb
        rw [List.mem_singleton] at hb
        subst b
        by_cases hfs : first_ship = true
        · rw [hfirst hfs] at ha
          cases ha
        · have h1 : ship.is_near_ship a = false := hshipnear (bool_not_true hfs) a ha
          have h2 : a.is_near_ship ship = false := by
            cases hb2 : a.is_near_ship ship
            · rfl
            · exfalso
              have := (Ship.is_near_ship_symm a ship (hWF a ha) hshipWF).mp hb2
              rw [this] at h1
              cases h1
          exact ⟨h2, h1⟩
      obtain ⟨hmap, hA, hB, hC⟩ := ih free2 (placed ++ [ship]) false o2
        (fun c hc => hfree c (hfree2sub c hc)) hWF' hgrid' hfar'
        (fun hcon => by simp at hcon) (fun l hl => hpos l (List.mem_cons_of_mem _ hl)) h
      refine ⟨?_, hA, hB, hC⟩
      rw [hmap, List.map_append]
      simp [hshiplen]

/-! ## Claim C5 -/

/-- C5: whenever `generate_ships_automatically` terminates with a fleet, that
fleet has exactly five ships with length multiset {1, 2, 3, 4, 5}, all
occupied cells on the 10x10 grid, no two ships mutually near (in either
direction), and `Board` construction accepts it. -/
theorem claim_C5 (o : List (Nat × Nat)) (result : List Ship)
    (h : generate_ships_automatically o = some result) :
    result.length = 5 ∧
    (↑(result.map Ship.length) : Multiset Int) = {1, 2, 3, 4, 5} ∧
    (∀ s ∈ result, ∀ c ∈ s.get_all_coordinates, onGrid c) ∧
    (∀ i j, ∀ (hi : i < result.length) (hj : j < result.length), i ≠ j →
      (result.get ⟨i, hi⟩).is_near_ship (result.get ⟨j, hj⟩) = false) ∧
    mkBoard result = Except.ok ⟨result, ∅⟩ := by
  rw [generate_ships_automatically] at h
  obtain ⟨hmap, hWF, hgrid, hfar⟩ := placeAll_spec [5, 4, 3, 2, 1] freeInit [] true o
    result (fun c hc => List.mem_of_mem_filter hc) (by simp) (by simp)
    List.Pairwise.nil (fun _ => rfl) (by decide) h
  have hmap' : result.map Ship.length = [5, 4, 3, 2, 1] := by simpa using hmap
  have hlen5 : result.length = 5 := by
    have := congrArg List.length hmap'
    simpa using this
  have hcorrect : lengths_of_ships_correct (result.map Ship.length) = true := by
    rw [hmap']
    decide
  have hfarpair : result.Pairwise (fun a b => ¬ a.is_near_ship b = true) :=
    hfar.imp (fun hab => by rw [hab.1]; simp)
  have hclose : are_some_ships_too_close_from_each_other result = false :=
    (too_close_eq_false_iff result).mpr hfarpair
  refine ⟨hlen5, ?_, ?_, ?_, ?_⟩
  · rw [hmap']
    decide
  · intro s hs c hc
    exact mem_gridCoordsList_onGrid c (hgrid s hs c hc)
  · intro i j hi hj hne
    rw [List.pairwise_iff_get] at hfar
    rcases Nat.lt_or_ge i j with hlt | hge
    · exact (hfar ⟨i, hi⟩ ⟨j, hj⟩ hlt).1
    · have hlt : j < i := Nat.lt_of_le_of_ne hge (fun hh => hne hh.symm)
      exact (hfar ⟨j, hj⟩ ⟨i, hi⟩ hlt).2
  · rw [mkBoard_ok_iff]
    exact ⟨hcorrect, hclose, rfl⟩

/-- A concrete oracle for the C5 witness: five placements, each accepted on
the first attempt (start index into the current free list, direction index). -/
def c5OracleW : List (Nat × Nat) := [(9, 0), (59, 1), (2, 1), (27, 0), (66, 0)]

/-- Witness for C5: the generator run on `c5OracleW` succeeds, and its fleet
satisfies the claim. -/
theorem claim_C5_witness :
    ∃ result,
      generate_ships_automatically c5OracleW = some result ∧
      result.length = 5 ∧
      (↑(result.map Ship.length) : Multiset Int) = {1, 2, 3, 4, 5} ∧
      (∀ s ∈ result, ∀ c ∈ s.get_all_coordinates, onGrid c) ∧
      (∀ i j, ∀ (hi : i < result.length) (hj : j < result.length), i ≠ j →
        (result.get ⟨i, hi⟩).is_near_ship (result.get ⟨j, hj⟩) = false) ∧
      mkBoard result = Except.ok ⟨result, ∅⟩ := by
  rcases hrun : generate_ships_automatically c5OracleW with _ | result
  · have hsome : (generate_ships_automatically c5OracleW).isSome = true := by decide
    rw [hrun] at hsome
    cases hsome
  · exact ⟨result, rfl, claim_C5 c5OracleW result hrun⟩

end Battleship
